import Mathlib

/-!
# Verification of the PyPipeline execution core

A shallow embedding of `src/pipeline_base.py` (and the concrete pipeline
assembled in `src/testing.py`), together with theorems settling the claims
about the natural-language specification of the repository.

Modelling conventions:
* Python values flowing through the record store are modelled by `PValue`
  (ints, strings, booleans, `None`); Python type annotations used in schemas
  by `PType` (`int`, `str`, `bool`, `NoneType`, `typing.Any`).
* Python `dict`s are association lists with the exact construction semantics
  of CPython dicts: `d[k] = v` replaces the value of the first occurrence of
  `k` in place (keeping its position) or appends; `d.update(e)` folds that
  assignment over `e`'s items; lookup returns the first occurrence.
* Python exceptions are values of `PyErr`; fallible code returns `Except`.
  The trace of underlying user-function invocations (the observable side
  effects) is threaded explicitly: a computation takes the trace so far and
  returns the extended trace, both on success and inside a raised error.
* Recursion through the lazily-invoked transformer pool and through nested
  branches is not structurally terminating in the source (the spec notes the
  absence of cycle detection), so the run functions take a fuel parameter;
  exhausted fuel models Python's unbounded recursion / RecursionError.
-/

/-- Python runtime values stored in record stores and passed to stages. -/
inductive PValue : Type where
  | vint  : Int → PValue
  | vstr  : String → PValue
  | vbool : Bool → PValue
  | vnone : PValue
deriving DecidableEq, Repr

/-- Python types as they appear in schemas: `int`, `str`, `bool`,
`types.NoneType`, and the open type `typing.Any`. -/
inductive PType : Type where
  | tint | tstr | tbool | tnone | tany
deriving DecidableEq, Repr

/-- Python `==` on the modelled value universe.  `bool` is a subclass of
`int` in Python, so `True == 1` and `False == 0`. -/
def pyEq : PValue → PValue → Bool
  | .vint a,  .vint b  => a == b
  | .vint a,  .vbool b => a == (if b then 1 else 0)
  | .vbool a, .vint b  => (if a then 1 else 0) == b
  | .vbool a, .vbool b => a == b
  | .vstr a,  .vstr b  => a == b
  | .vnone,   .vnone   => true
  | _,        _        => false

/-- `isinstance(v, t)` on the modelled universe.  Two Python facts are
embedded here: `bool` is a subclass of `int`, and `typing.Any` cannot be used
with `isinstance` — `_AnyMeta.__instancecheck__` raises `TypeError`
unconditionally (Python ≥ 3.11, which the source requires since it imports
`typing.Self`). -/
inductive IsinstanceRes : Type where
  | ok (b : Bool)
  | raisesTypeError
deriving DecidableEq, Repr

def isinstance (v : PValue) (t : PType) : IsinstanceRes :=
  match t with
  | .tany  => .raisesTypeError
  | .tint  => .ok (match v with | .vint _ => true | .vbool _ => true | _ => false)
  | .tbool => .ok (match v with | .vbool _ => true | _ => false)
  | .tstr  => .ok (match v with | .vstr _ => true | _ => false)
  | .tnone => .ok (match v with | .vnone => true | _ => false)

/-- Python exceptions raised by the execution core. -/
inductive PyErr : Type where
  | keyError (msg : String)
  | typeError (msg : String)
  | valueError (msg : String)
  | lookupError (msg : String)
  | recursionError
deriving DecidableEq, Repr

/-- `isinstance(e, LookupError)`: `KeyError` and `LookupError` itself are
`LookupError`s; `TypeError` and `ValueError` are not. -/
def PyErr.isLookupError : PyErr → Bool
  | .keyError _ => true
  | .lookupError _ => true
  | _ => false

/-! ## Python dicts as association lists -/

/-- `d[k] = v`: replace the value at the first occurrence of `k`, keeping its
position, or append a fresh binding.  (A real dict has unique keys, so "first
occurrence" is exact.) -/
def dictInsert {α : Type} : List (String × α) → String → α → List (String × α)
  | [], k, v => [(k, v)]
  | (k', v') :: rest, k, v =>
      if k' = k then (k, v) :: rest else (k', v') :: dictInsert rest k v

/-- `d.update(e)`: fold `d[k] = v` over `e`'s items in order. -/
def dictUpdate {α : Type} (d e : List (String × α)) : List (String × α) :=
  e.foldl (fun acc kv => dictInsert acc kv.1 kv.2) d

/-- `d[k]` / `d.get(k)` lookup: value at the first occurrence of `k`. -/
def dictGet? {α : Type} : List (String × α) → String → Option α
  | [], _ => none
  | (k', v) :: rest, k => if k' = k then some v else dictGet? rest k

/-- `list(d)` / `d.keys()`. -/
def dictKeys {α : Type} (d : List (String × α)) : List String := d.map (·.1)

/-- `dict(items)`: build a dict from a (possibly duplicated) item sequence by
folding assignment into an empty dict, exactly like CPython's constructor. -/
def dictMake {α : Type} (items : List (String × α)) : List (String × α) :=
  dictUpdate [] items

/-- A record store / `PipelineDataMap`: a Python dict of named values. -/
abbrev Record := List (String × PValue)

/-- A schema / `PipelineInputMap` / `PipelineOutputMap`: dict name → type. -/
abbrev Schema := List (String × PType)

/-- Trace of underlying user-function invocations performed during a run:
the observable side effects, in order. -/
abbrev Trace := List String

/-- Result of a fallible, effectful computation: on both success and raised
exception the invocation trace accumulated so far is reported. -/
abbrev Res (α : Type) := Except (PyErr × Trace) (α × Trace)


/-! ## Function objects, signature introspection and decorators

A Python function is modelled by its name, its signature (parameter names
with optional annotations), its return annotation, and its semantics: a pure
map from the resolved input record to a returned Python value.  Decorators
(`stage`, `transformer`, `cache`) attach attributes; `DecoratedFun` carries
the function together with every `_pipeline_*` attribute the source reads via
`getattr` (absent attributes are the `getattr` defaults, e.g. both flags
`False` for an undecorated callable).  Console output performed by a body is
outside the modelled state; an invocation is recorded in the trace instead. -/

/-- Values a Python function can return, as `normalize_result` distinguishes
them: a dict, a tuple or list, a namedtuple instance, a dataclass instance,
or a bare scalar (including `None`). -/
inductive PyResult : Type where
  | rdict (items : Record)
  | rtuple (xs : List PValue)
  | rnamedtuple (fields : List (String × PValue))
  | rdataclass (fields : List (String × PValue))
  | rscalar (v : PValue)
deriving DecidableEq, Repr

/-- Return annotation shapes distinguished by `infer_output_types`. -/
inductive RetAnn : Type where
  | absent                       -- no return annotation
  | dictAnn                      -- Dict[str, T]
  | tupleAnn (ts : List PType)   -- Tuple[T1, T2, ...]
  | typedDictAnn (s : Schema)    -- a TypedDict subclass
  | annotatedAnn (s : Schema)    -- Annotated[Dict, {...}]
  | noneAnn                      -- -> None (NoneType)
  | primAnn (t : PType)          -- a single primitive type
  | otherAnn                     -- anything else

/-- A Python function: name, signature, return annotation and semantics. -/
structure PyFunc : Type where
  name : String
  params : List (String × Option PType)
  retAnn : RetAnn
  impl : Record → PyResult

/-- `infer_input_types` (pipeline_base.py:47-57): each parameter becomes an
input field; `self` is skipped; an unannotated parameter gets `Any`. -/
def infer_input_types (f : PyFunc) : Schema :=
  (f.params.filter (fun p => p.1 ≠ "self")).map (fun p => (p.1, p.2.getD PType.tany))

/-- `infer_output_types` (pipeline_base.py:93-131).  Note the Python
truthiness tests embedded faithfully: `if names and len(names) == len(args)`
treats an empty name list as falsy, and `name if name else "output"` treats
the empty string as falsy. -/
def infer_output_types (f : PyFunc) (name : Option String) (names : Option (List String)) :
    Schema :=
  match f.retAnn with
  | .absent => []            -- THROW_ERROR_ON_MISSING_RET_ANN is False
  | .dictAnn => []
  | .tupleAnn ts =>
      match names with
      | some ns => if ns ≠ [] ∧ ns.length = ts.length then List.zip ns ts else []
      | none => []
  | .typedDictAnn s => s
  | .annotatedAnn s => s
  | .noneAnn => []
  | .primAnn t =>
      match name with
      | some n => [(if n = "" then "output" else n, t)]
      | none => [("output", t)]
  | .otherAnn => []

/-- The shapes accepted by `normalize_io` for an explicit `inputs=`/`outputs=`
argument: a dict, a list of names, a single name, or anything else. -/
inductive IOSpec : Type where
  | sdict (s : Schema)
  | slist (ns : List String)
  | sstr (n : String)
  | snone
  | sother

/-- `normalize_io` (pipeline_base.py:36-45): a dict is used as is, a list of
names or a single name maps each name to the open type `Any`, anything else
raises `TypeError`. -/
def normalize_io : IOSpec → Except PyErr Schema
  | .snone => .ok []
  | .sdict s => .ok s
  | .slist ns => .ok (ns.map (fun k => (k, PType.tany)))
  | .sstr n => .ok [(n, PType.tany)]
  | .sother => .error (.typeError "inputs/outputs must be dict, list, or str")

/-- `normalize_result` (pipeline_base.py:65-91).  A namedtuple instance
satisfies `isinstance(result, (tuple, list))`, so it is consumed by the
sequence branch (zipped positionally against the declared output names, with
a `ValueError` on arity mismatch); the dedicated `is_namedtuple_instance`
branch below it in the source is unreachable for namedtuples.  The dict built
by `dict(zip(...))` is modelled by `dictMake`, CPython's constructor
semantics. -/
def normalize_result (result : PyResult) (output_names : List String) (stage_name : String) :
    Except PyErr Record :=
  match result with
  | .rdict items => .ok items
  | .rtuple xs =>
      if xs.length ≠ output_names.length then
        .error (.valueError (stage_name ++ " returned " ++ toString xs.length ++
          " values, but expected " ++ toString output_names.length))
      else .ok (dictMake (List.zip output_names xs))
  | .rnamedtuple fields =>
      -- isinstance(namedtuple_instance, (tuple, list)) is True: sequence branch
      if fields.length ≠ output_names.length then
        .error (.valueError (stage_name ++ " returned " ++ toString fields.length ++
          " values, but expected " ++ toString output_names.length))
      else .ok (dictMake (List.zip output_names (fields.map (·.2))))
  | .rdataclass fields => .ok (dictMake fields)   -- dataclasses.asdict
  | .rscalar v =>
      match output_names with
      | [n] => .ok [(n, v)]
      | [] => .ok []
      | _ => .error (.typeError (stage_name ++
          " returned a single value, but multiple outputs are expected"))

/-- A callable together with the ambient attributes the decorators attach and
the memo table owned by its `functools.lru_cache` wrapper.  `getattr`
defaults make an undecorated callable one with both flags `false`. -/
structure DecoratedFun : Type where
  func : PyFunc
  pipeline_stage : Bool := false          -- _pipeline_stage
  pipeline_transformer : Bool := false    -- _pipeline_transformer
  pipeline_inputs : Schema := []          -- _pipeline_inputs
  pipeline_outputs : Schema := []         -- _pipeline_outputs
  pipeline_unwrap_inputs : Bool := false  -- _pipeline_unwrap_inputs
  pipeline_cache : Bool := false          -- _pipeline_cache (lru_cache wrapper present)
  cacheMaxsize : Option Nat := none       -- lru_cache maxsize (none = unbounded)
  cacheTable : List (Record × PyResult) := []  -- memo table, most recent first

/-- `cache` decorator (pipeline_base.py:23-33): marks the function and wraps
it with `functools.lru_cache(maxsize=size)`; the wrapper starts with an empty
memo table.  `CACHE_DEFAULT_SIZE = 128`. -/
def cacheDec (f : DecoratedFun) (size : Option Nat := some 128) : DecoratedFun :=
  { f with pipeline_cache := true, cacheMaxsize := size, cacheTable := [] }

/-- `stage` decorator (pipeline_base.py:292-302): sets `_pipeline_stage`,
computes schemas (explicit via `normalize_io` or inferred from the
signature), and records whether invocation unpacks the record into keyword
arguments (`inputs is None`). -/
def stageDec (f : DecoratedFun) (inputs outputs : Option IOSpec)
    (output_name : Option String) (output_names : Option (List String)) :
    Except PyErr DecoratedFun := do
  let ins ← match inputs with
    | some io => normalize_io io
    | none => pure (infer_input_types f.func)
  let outs ← match outputs with
    | some io => normalize_io io
    | none => pure (infer_output_types f.func output_name output_names)
  return { f with pipeline_stage := true, pipeline_inputs := ins,
                  pipeline_outputs := outs, pipeline_unwrap_inputs := inputs.isNone }

/-- `transformer` decorator (pipeline_base.py:194-204): identical shape, sets
`_pipeline_transformer` instead. -/
def transformerDec (f : DecoratedFun) (inputs outputs : Option IOSpec)
    (output_name : Option String) (output_names : Option (List String)) :
    Except PyErr DecoratedFun := do
  let ins ← match inputs with
    | some io => normalize_io io
    | none => pure (infer_input_types f.func)
  let outs ← match outputs with
    | some io => normalize_io io
    | none => pure (infer_output_types f.func output_name output_names)
  return { f with pipeline_transformer := true, pipeline_inputs := ins,
                  pipeline_outputs := outs, pipeline_unwrap_inputs := inputs.isNone }

/-! ## Invoking a wrapped function (with the lru_cache layer) -/

/-- Python `==` on keyword-argument tuples, as `functools.lru_cache` compares
memo keys: same names in the same order, values compared by Python `==`
(so `1` and `True` are the same key). -/
def pyEqRecord : Record → Record → Bool
  | [], [] => true
  | (k, v) :: a, (k', v') :: b => k == k' && pyEq v v' && pyEqRecord a b
  | _, _ => false

/-- Lookup in the memo table by the resolved keyword arguments, in the
deterministic order the resolver builds them, compared by Python `==`. -/
def lruLookup (table : List (Record × PyResult)) (key : Record) : Option PyResult :=
  match table.find? (fun e => pyEqRecord e.1 key) with
  | some e => some e.2
  | none => none

/-- On a hit, lru_cache moves the entry to the most-recent position. -/
def lruTouch (table : List (Record × PyResult)) (key : Record) : List (Record × PyResult) :=
  match table.find? (fun e => pyEqRecord e.1 key) with
  | some e => e :: table.filter (fun e' => ! pyEqRecord e'.1 key)
  | none => table

/-- On a miss, lru_cache stores the new entry and discards the least recently
used one beyond `maxsize`. -/
def lruInsert (table : List (Record × PyResult)) (key : Record) (r : PyResult)
    (maxsize : Option Nat) : List (Record × PyResult) :=
  match maxsize with
  | none => (key, r) :: table
  | some m => ((key, r) :: table).take m

/-- `self._func(**inputs)` / `self._func(inputs)`: invoke the (possibly
lru-wrapped) callable on the resolved record.  When the lru wrapper is
present, `functools.lru_cache` first builds a hash key from the call's
arguments:
* with `_unwrap_inputs` (`f(**inputs)`) the key is the keyword items, whose
  names are strings and whose values lie in the hashable `PValue` universe,
  so hashing succeeds; a memo hit returns the stored result without
  executing the body, and a miss executes the body (appending the function's
  name to the invocation trace) and memoizes the raw result;
* without it (`f(inputs)`) the single positional argument is the aggregated
  dict itself, which is unhashable, so Python raises
  `TypeError: unhashable type: 'dict'` before the wrapped body runs — the
  specification's CacheKeyError path (§4.2).
An unwrapped callable (no lru layer) executes directly either way. -/
def callFunc (f : DecoratedFun) (unwrap : Bool) (inputs : Record) (tr : Trace) :
    Res (PyResult × DecoratedFun) :=
  if f.pipeline_cache then
    if unwrap then
      match lruLookup f.cacheTable inputs with
      | some r => .ok ((r, { f with cacheTable := lruTouch f.cacheTable inputs }), tr)
      | none =>
          let r := f.func.impl inputs
          .ok ((r, { f with cacheTable := lruInsert f.cacheTable inputs r f.cacheMaxsize }),
            tr ++ [f.func.name])
    else .error (.typeError "unhashable type: dict", tr)
  else .ok ((f.func.impl inputs, f), tr ++ [f.func.name])

/-! ## Input validation

`PipelineStage._validate_inputs` (pipeline_base.py:221-226),
`PipelineTransformer._validate_inputs` (169-174) and
`Pipeline._validate_inputs` (375-380) are textually identical loops over a
schema: a missing key raises `KeyError`, then `isinstance` checks the present
value (raising `TypeError` itself when the expected type is `typing.Any`),
and a failed check raises `TypeError`. -/
def validateInputs (schema : Schema) (inputs : Record) : Except PyErr Unit :=
  match schema with
  | [] => .ok ()
  | (key, expected) :: rest =>
      match dictGet? inputs key with
      | none => .error (.keyError ("Missing required input: " ++ key))
      | some v =>
          match isinstance v expected with
          | .raisesTypeError =>
              .error (.typeError "typing.Any cannot be used with isinstance()")
          | .ok false => .error (.typeError ("Expected type mismatch for " ++ key))
          | .ok true => validateInputs rest inputs

/-! ## FunctionStage and PipelineTransformer -/

/-- `FunctionStage` (pipeline_base.py:247-289): wraps a decorated callable;
the constructor snapshot-copies the `_pipeline_*` attributes. -/
structure FunctionStage : Type where
  func : DecoratedFun       -- self._func
  inputs : Schema           -- self._inputs
  outputs : Schema          -- self._outputs
  unwrap_inputs : Bool      -- self._unwrap_inputs
  cached : Bool             -- self._cached

/-- `FunctionStage.__init__` (pipeline_base.py:249-257): rejects a callable
without the `_pipeline_stage` attribute. -/
def FunctionStage.create (f : DecoratedFun) : Except PyErr FunctionStage :=
  if f.pipeline_stage then
    .ok ⟨f, f.pipeline_inputs, f.pipeline_outputs, f.pipeline_unwrap_inputs, f.pipeline_cache⟩
  else .error (.valueError "function is not a stage must use the @stage decorator")

/-- `FunctionStage.clear_cache` (pipeline_base.py:262-267): empties the lru
table when the stage is cached (the wrapper carries `cache_clear` exactly
when `_pipeline_cache` was set by the `cache` decorator). -/
def FunctionStage.clear_cache (fs : FunctionStage) : FunctionStage :=
  if fs.cached then { fs with func := { fs.func with cacheTable := [] } } else fs

/-- `FunctionStage.run` (pipeline_base.py:280-289): validate, invoke the
callable, reshape the raw result against `list(self._outputs)`. -/
def FunctionStage.run (fs : FunctionStage) (inputs : Record) (tr : Trace) :
    Res (Record × FunctionStage) :=
  match validateInputs fs.inputs inputs with
  | .error e => .error (e, tr)
  | .ok () =>
      match callFunc fs.func fs.unwrap_inputs inputs tr with
      | .error e => .error e
      | .ok ((result, f'), tr') =>
          match normalize_result result (dictKeys fs.outputs) fs.func.func.name with
          | .error e => .error (e, tr')
          | .ok r => .ok ((r, { fs with func := f' }), tr')

/-- `PipelineTransformer` (pipeline_base.py:133-191): same wrapper shape as
`FunctionStage`, gated on the `_pipeline_transformer` attribute. -/
structure PipelineTransformer : Type where
  func : DecoratedFun
  inputs : Schema
  outputs : Schema
  unwrap_inputs : Bool
  cached : Bool

/-- `PipelineTransformer.__init__` (pipeline_base.py:135-143). -/
def PipelineTransformer.create (f : DecoratedFun) : Except PyErr PipelineTransformer :=
  if f.pipeline_transformer then
    .ok ⟨f, f.pipeline_inputs, f.pipeline_outputs, f.pipeline_unwrap_inputs, f.pipeline_cache⟩
  else .error (.valueError
    "function is not a transformer must use the @transformer or @provider decorators")

/-- `PipelineTransformer.transform` (pipeline_base.py:176-185): validate,
invoke, reshape — the transformer counterpart of `FunctionStage.run`. -/
def PipelineTransformer.transform (t : PipelineTransformer) (inputs : Record) (tr : Trace) :
    Res (Record × PipelineTransformer) :=
  match validateInputs t.inputs inputs with
  | .error e => .error (e, tr)
  | .ok () =>
      match callFunc t.func t.unwrap_inputs inputs tr with
      | .error e => .error e
      | .ok ((result, f'), tr') =>
          match normalize_result result (dictKeys t.outputs) t.func.func.name with
          | .error e => .error (e, tr')
          | .ok r => .ok ((r, { t with func := f' }), tr')

/-! ## The pull-based dependency resolver

`Pipeline._has_input`, `Pipeline._get_input` and `Pipeline.resolve_input`
(pipeline_base.py:332-363) touch only the scope's `data_records` and
`transforms`, so they are embedded over that pair of fields; both updated
fields are returned (the source mutates them in place).

Two source facts shape the embedding:
* `_get_input` invokes `self.resolve_input(self, input_def)` for each of a
  matched transformer's inputs — the `parent` argument it passes is `self`,
  which is never `None`.
* `resolve_input`'s delegation branch executes `parent.resolve_input(input)`,
  a call that omits the required positional `input` argument of
  `resolve_input(self, parent, input)`.  Python therefore raises
  `TypeError: resolve_input() missing 1 required positional argument`
  whenever this branch is taken, before any attribute of `parent` is read.
  Consequently only the `None`-ness of `parent` is ever observable, and the
  embedding takes `parent : Option Unit`.

The loops of `_get_input` are parametric in the resolver they invoke for a
transformer's own declared inputs (the late-bound `self.resolve_input`);
`resolve_input` then ties the knot, spending one unit of fuel per nesting
level of the recursion, so that every function here is structurally
recursive and computable by reduction.  The transformer scan walks the
remaining suffix of the pool; no scope state changes between scan steps
(state changes only on the matching step, which returns), and `i` names the
position of the scanned transformer so that its updated memo state can be
written back, modelling in-place object mutation. -/

/-- `PipelineDataDefinition` (pipeline_base.py:14-17). -/
structure PipelineDataDefinition : Type where
  type : PType
  name : String

/-- The type of the resolver a scope hands to its own loops: from current
store and pool and a requested field to a value and the updated scope. -/
abbrev Resolver :=
  Record → List PipelineTransformer → PipelineDataDefinition → Trace →
    Res (PValue × Record × List PipelineTransformer)

/-- `Pipeline._has_input` (pipeline_base.py:332-335). -/
def pipelineHasInput (records : Record) (transforms : List PipelineTransformer)
    (d : PipelineDataDefinition) : Bool :=
  (dictGet? records d.name).isSome ||
    transforms.any (fun t => (dictKeys t.outputs).contains d.name)

/-- The `required_inputs` loop of `_get_input` (pipeline_base.py:347-350):
each declared input of the matched transformer is resolved by `res`
(instantiated with `self.resolve_input(self, ·)`, i.e. with a non-`None`
parent). -/
def resolveTransInputsWith (res : Resolver) (records : Record)
    (transforms : List PipelineTransformer) (ins : Schema) (acc : Record) (tr : Trace) :
    Res (Record × Record × List PipelineTransformer) :=
  match ins with
  | [] => .ok ((acc, records, transforms), tr)
  | (key, expected) :: rest =>
      match res records transforms ⟨expected, key⟩ tr with
      | .error e => .error e
      | .ok ((v, records1, transforms1), tr1) =>
          resolveTransInputsWith res records1 transforms1 rest (dictInsert acc key v) tr1

/-- The `for transformer in self.transforms` loop of `_get_input`
(pipeline_base.py:344-356): the first transformer declaring the requested
field among its outputs resolves its own inputs against the same scope, is
invoked, has all its produced outputs merged into the store, and answers
`result[input.name]`; if none matches, `KeyError`. -/
def scanTransformsWith (res : Resolver) (records : Record)
    (transforms : List PipelineTransformer) (rem : List PipelineTransformer) (i : Nat)
    (d : PipelineDataDefinition) (tr : Trace) :
    Res (PValue × Record × List PipelineTransformer) :=
  match rem with
  | [] => .error (.keyError ("No data or transformer found for input: " ++ d.name), tr)
  | t :: rest =>
      if (dictKeys t.outputs).contains d.name then
        match resolveTransInputsWith res records transforms t.inputs [] tr with
        | .error e => .error e
        | .ok ((required, records1, transforms1), tr1) =>
            -- the scanned object's current state (its memo table may have
            -- been touched while resolving its own inputs)
            let t1 := (transforms1.get? i).getD t
            match t1.transform required tr1 with
            | .error e => .error e
            | .ok ((result, t2), tr2) =>
                let records2 := dictUpdate records1 result
                let transforms2 := transforms1.set i t2
                match dictGet? result d.name with
                | some v => .ok ((v, records2, transforms2), tr2)
                | none => .error (.keyError d.name, tr2)
      else
        scanTransformsWith res records transforms rest (i + 1) d tr

/-- `Pipeline._get_input` (pipeline_base.py:338-356), parametric in the
resolver used for transformer inputs: the store answers first; otherwise the
transformer pool is scanned. -/
def pipelineGetInputWith (res : Resolver) (records : Record)
    (transforms : List PipelineTransformer) (d : PipelineDataDefinition) (tr : Trace) :
    Res (PValue × Record × List PipelineTransformer) :=
  match dictGet? records d.name with
  | some v => .ok ((v, records, transforms), tr)
  | none => scanTransformsWith res records transforms transforms 0 d tr

/-- `Pipeline.resolve_input` (pipeline_base.py:358-363): local resolution if
`_has_input`, otherwise the buggy parent delegation (an unconditional
`TypeError`, see the section comment) or a `LookupError`.  One unit of fuel
is spent per nesting level of chained transformer resolution. -/
def resolve_input : Nat → Record → List PipelineTransformer → Option Unit →
    PipelineDataDefinition → Trace → Res (PValue × Record × List PipelineTransformer)
  | 0, _, _, _, _, tr => .error (.recursionError, tr)
  | fuel + 1, records, transforms, parent, d, tr =>
      if pipelineHasInput records transforms d then
        pipelineGetInputWith
          (fun rc tf d' tr' => resolve_input fuel rc tf (some ()) d' tr')
          records transforms d tr
      else
        match parent with
        | some _ => .error (.typeError
            "resolve_input() missing 1 required positional argument: input", tr)
        | none => .error (.lookupError "Could not find way to get input", tr)

/-- `Pipeline._get_input` with its resolver instantiated as in the source:
`self.resolve_input(self, input_def)` for each transformer input. -/
def pipelineGetInput (fuel : Nat) (records : Record)
    (transforms : List PipelineTransformer) (d : PipelineDataDefinition) (tr : Trace) :
    Res (PValue × Record × List PipelineTransformer) :=
  pipelineGetInputWith
    (fun rc tf d' tr' => resolve_input fuel rc tf (some ()) d' tr')
    records transforms d tr

/-! ## Pipelines, branches and the conditional dispatch node

`Pipeline` (pipeline_base.py:307-433) owns a transformer pool, an ordered
stage list, its record store, and the dependency/output schemas with their
`_deps_set`/`_out_set` pin flags.  A stage slot holds a `FunctionStage`, a
nested `PipelineBranch` (a `Pipeline` usable as a stage, 435-449), or a
`MatchCaseBranch` (451-517).  All run methods thread the updated objects
explicitly, modelling Python's in-place mutation. -/

mutual

inductive PStage : Type where
  | func (fs : FunctionStage) : PStage
  | branch (b : PipelineBranch) : PStage
  | matchCase (m : MatchCaseBranch) : PStage

inductive Pipeline : Type where
  | mk (transforms : List PipelineTransformer) (stages : List PStage)
       (data_records : Record) (dependencies : Schema) (outputs : Schema)
       (deps_set : Bool) (out_set : Bool) : Pipeline

inductive PipelineBranch : Type where
  | mk (pipe : Pipeline) : PipelineBranch

inductive MatchCaseBranch : Type where
  | mk (key_name : String) (cases : List (PValue × PipelineBranch))
       (default_branch : Option PipelineBranch)
       (finally_branch : Option PipelineBranch) : MatchCaseBranch

end

def Pipeline.transforms : Pipeline → List PipelineTransformer
  | .mk t _ _ _ _ _ _ => t

def Pipeline.stages : Pipeline → List PStage
  | .mk _ s _ _ _ _ _ => s

def Pipeline.data_records : Pipeline → Record
  | .mk _ _ r _ _ _ _ => r

def Pipeline.dependencies : Pipeline → Schema
  | .mk _ _ _ d _ _ _ => d

def Pipeline.outputs : Pipeline → Schema
  | .mk _ _ _ _ o _ _ => o

def Pipeline.deps_set : Pipeline → Bool
  | .mk _ _ _ _ _ b _ => b

def Pipeline.out_set : Pipeline → Bool
  | .mk _ _ _ _ _ _ b => b

def Pipeline.withRecords (p : Pipeline) (r : Record) : Pipeline :=
  .mk p.transforms p.stages r p.dependencies p.outputs p.deps_set p.out_set

def Pipeline.withTransforms (p : Pipeline) (ts : List PipelineTransformer) : Pipeline :=
  .mk ts p.stages p.data_records p.dependencies p.outputs p.deps_set p.out_set

def Pipeline.withStages (p : Pipeline) (ss : List PStage) : Pipeline :=
  .mk p.transforms ss p.data_records p.dependencies p.outputs p.deps_set p.out_set

/-- `Pipeline.__init__` (pipeline_base.py:309-323): a `None` schema argument
leaves the schema empty and the corresponding pin flag unset. -/
def Pipeline.init (dependencies outputs : Option Schema) : Pipeline :=
  .mk [] [] [] (dependencies.getD []) (outputs.getD []) dependencies.isSome outputs.isSome

def PipelineBranch.pipe : PipelineBranch → Pipeline
  | .mk p => p

/-- `PipelineBranch.__init__` (pipeline_base.py:437-439): a fresh pipeline
with no explicit schemas (and the stage-level `_inputs`/`_outputs` dicts,
which stay empty for a branch). -/
def PipelineBranch.init : PipelineBranch := .mk (Pipeline.init none none)

def MatchCaseBranch.key_name : MatchCaseBranch → String
  | .mk k _ _ _ => k

def MatchCaseBranch.cases : MatchCaseBranch → List (PValue × PipelineBranch)
  | .mk _ c _ _ => c

def MatchCaseBranch.default_branch : MatchCaseBranch → Option PipelineBranch
  | .mk _ _ d _ => d

def MatchCaseBranch.finally_branch : MatchCaseBranch → Option PipelineBranch
  | .mk _ _ _ f => f

/-- `MatchCaseBranch.__init__` (pipeline_base.py:452-457). -/
def MatchCaseBranch.init (key : String) : MatchCaseBranch := .mk key [] none none

/-- `PipelineBranch.get_inputs` (pipeline_base.py:441-442): the branch's own
dependency schema. -/
def PipelineBranch.get_inputs (b : PipelineBranch) : Schema := b.pipe.dependencies

/-- `PipelineBranch.get_outputs` (pipeline_base.py:444-445). -/
def PipelineBranch.get_outputs (b : PipelineBranch) : Schema := b.pipe.outputs

/-- `MatchCaseBranch.get_inputs` (pipeline_base.py:472-481): the match key
(open-typed) updated with every arm's inputs. -/
def MatchCaseBranch.get_inputs (m : MatchCaseBranch) : Schema :=
  let base : Schema := [(m.key_name, PType.tany)]
  let withCases := m.cases.foldl (fun acc c => dictUpdate acc c.2.get_inputs) base
  let withDefault :=
    match m.default_branch with
    | some b => dictUpdate withCases b.get_inputs
    | none => withCases
  match m.finally_branch with
  | some b => dictUpdate withDefault b.get_inputs
  | none => withDefault

/-- `MatchCaseBranch.get_outputs` (pipeline_base.py:483-492): the union of
every arm's outputs. -/
def MatchCaseBranch.get_outputs (m : MatchCaseBranch) : Schema :=
  let withCases := m.cases.foldl (fun acc c => dictUpdate acc c.2.get_outputs) ([] : Schema)
  let withDefault :=
    match m.default_branch with
    | some b => dictUpdate withCases b.get_outputs
    | none => withCases
  match m.finally_branch with
  | some b => dictUpdate withDefault b.get_outputs
  | none => withDefault

/-- `get_inputs` of a stage slot: `FunctionStage` answers its `_inputs`,
branches and match nodes their overrides. -/
def PStage.get_inputs : PStage → Schema
  | .func fs => fs.inputs
  | .branch b => b.get_inputs
  | .matchCase m => m.get_inputs

def PStage.get_outputs : PStage → Schema
  | .func fs => fs.outputs
  | .branch b => b.get_outputs
  | .matchCase m => m.get_outputs

/-! ## Builder surface -/

/-- `Pipeline._append_stage` (pipeline_base.py:404-409): appends, then the
dependency schema defaults to the first appended stage's inputs when not
pinned, and the output schema tracks the latest appended stage's outputs
when not pinned. -/
def Pipeline.append_stage (p : Pipeline) (s : PStage) : Pipeline :=
  let stages' := p.stages ++ [s]
  let dependencies' :=
    if stages'.length = 1 ∧ ¬ p.deps_set then s.get_inputs else p.dependencies
  let outputs' := if ¬ p.out_set then s.get_outputs else p.outputs
  .mk p.transforms stages' p.data_records dependencies' outputs' p.deps_set p.out_set

/-- Argument of `Pipeline.stage` (pipeline_base.py:411-416): a raw callable
(which is wrapped by `FunctionStage`, whose constructor validates the
decorator flag) or an already-built stage object (not callable). -/
inductive StageArg : Type where
  | fromCallable (f : DecoratedFun)
  | fromStage (s : PStage)

/-- `Pipeline.stage` (pipeline_base.py:411-416). -/
def Pipeline.stage (p : Pipeline) : StageArg → Except PyErr Pipeline
  | .fromCallable f => (FunctionStage.create f).map (fun fs => p.append_stage (.func fs))
  | .fromStage s => .ok (p.append_stage s)

/-- Argument of `Pipeline.transformer` (pipeline_base.py:418-423). -/
inductive TransformerArg : Type where
  | fromCallable (f : DecoratedFun)
  | fromTransformer (t : PipelineTransformer)

/-- `Pipeline.transformer` (pipeline_base.py:418-423): appends to the
transformer pool; a raw callable is wrapped by `PipelineTransformer`, whose
constructor validates the decorator flag. -/
def Pipeline.transformer (p : Pipeline) : TransformerArg → Except PyErr Pipeline
  | .fromCallable f =>
      (PipelineTransformer.create f).map (fun t => p.withTransforms (p.transforms ++ [t]))
  | .fromTransformer t => .ok (p.withTransforms (p.transforms ++ [t]))

/-- `Pipeline.dependency` (pipeline_base.py:425-428): pins the dependency
schema. -/
def Pipeline.dependency (p : Pipeline) (deps : Schema) : Pipeline :=
  .mk p.transforms p.stages p.data_records deps p.outputs true p.out_set

/-- `Pipeline.output` (pipeline_base.py:430-433): pins the output schema. -/
def Pipeline.output (p : Pipeline) (outs : Schema) : Pipeline :=
  .mk p.transforms p.stages p.data_records p.dependencies outs p.deps_set true

/-- `PipelineBranch` inherits the builder surface; `branch.stage(f)` runs
`Pipeline.stage` on the underlying pipeline. -/
def PipelineBranch.stage (b : PipelineBranch) (a : StageArg) : Except PyErr PipelineBranch :=
  (b.pipe.stage a).map .mk

/-- `MatchCaseBranch.case` (pipeline_base.py:459-462) appends a
`(value, branch)` pair whose branch the caller then populates in place; the
embedding receives the populated branch. -/
def MatchCaseBranch.case (m : MatchCaseBranch) (v : PValue) (b : PipelineBranch) :
    MatchCaseBranch :=
  .mk m.key_name (m.cases ++ [(v, b)]) m.default_branch m.finally_branch

/-- `MatchCaseBranch.default` (pipeline_base.py:464-466). -/
def MatchCaseBranch.default (m : MatchCaseBranch) (b : PipelineBranch) : MatchCaseBranch :=
  .mk m.key_name m.cases (some b) m.finally_branch

/-- `MatchCaseBranch.finally_` (pipeline_base.py:468-470). -/
def MatchCaseBranch.setFinally (m : MatchCaseBranch) (b : PipelineBranch) : MatchCaseBranch :=
  .mk m.key_name m.cases m.default_branch (some b)

/-- `match` / `MatchHelper` (pipeline_base.py:520-546): build a
`MatchCaseBranch` for `key_name`, let the callback add arms, then append the
node as a stage (`helper.end`); a `MatchCaseBranch` is not callable, so
`Pipeline.stage` appends it directly. -/
def Pipeline.matchOn (p : Pipeline) (key_name : String)
    (buildArms : MatchCaseBranch → MatchCaseBranch) : Except PyErr Pipeline :=
  p.stage (.fromStage (.matchCase (buildArms (MatchCaseBranch.init key_name))))

/-! ## The run engine

`Pipeline._run` (pipeline_base.py:382-397) resolves each stage's declared
inputs through `resolve_input` — re-raising any `LookupError` (which includes
`KeyError`) as a stage-naming `KeyError`, while `TypeError`s propagate — then
invokes the stage with `self` as parent and merges its result.

A method-resolution-order subtlety is embedded faithfully: `_run` calls
`self._validate_inputs(inputs)`, which for a plain `Pipeline` is
`Pipeline._validate_inputs` (checking `self.dependencies`), but for a
`PipelineBranch(PipelineStage, Pipeline)` resolves to
`PipelineStage._validate_inputs`, which checks `self._inputs` — a dict that
`PipelineStage.__init__` left empty for every branch, so branch-level
validation always passes.

`stage.run(...)` is a late-bound method call, so the loops are parametric in
the runner they dispatch to; `PStage.runStage` ties the knot, spending one
unit of fuel per nesting level of branches, keeping every function
structurally recursive and computable by reduction. -/

/-- The late-bound `stage.run(required_inputs, self)` dispatched inside a
pipeline's stage loop. -/
abbrev StageRunner := PStage → Record → Option Unit → Trace → Res (Record × PStage)

/-- The late-bound `branch.run(inputs, parent)` dispatched inside a match
node. -/
abbrev BranchRunner :=
  PipelineBranch → Record → Option Unit → Trace → Res (Record × PipelineBranch)

/-- The per-stage input resolution loop of `Pipeline._run`
(pipeline_base.py:387-394), including the `except LookupError` re-raise. -/
def resolveStageInputs (fuel : Nat) (records : Record)
    (transforms : List PipelineTransformer) (parent : Option Unit) (ins : Schema)
    (acc : Record) (tr : Trace) : Res (Record × Record × List PipelineTransformer) :=
  match ins with
  | [] => .ok ((acc, records, transforms), tr)
  | (key, expected) :: rest =>
      match resolve_input fuel records transforms parent ⟨expected, key⟩ tr with
      | .error (e, tr') =>
          if e.isLookupError then
            .error (.keyError ("Missing required input '" ++ key ++ "' for stage"), tr')
          else .error (e, tr')
      | .ok ((v, records1, transforms1), tr1) =>
          resolveStageInputs fuel records1 transforms1 parent rest (dictInsert acc key v) tr1

/-- The `for stage in self.stages` loop of `Pipeline._run`
(pipeline_base.py:386-396).  `rem` is the remaining suffix of the stage list
and `i` the position of its head, used to write the stage's updated state
back (in-place object mutation); entries beyond `i` are untouched by earlier
iterations, so the suffix stays current.  `result` is the running value of
the loop variable, returned after the last stage. -/
def stagesLoopWith (runSt : StageRunner) (fuel : Nat) (p : Pipeline) (parent : Option Unit)
    (rem : List PStage) (i : Nat) (result : Record) (tr : Trace) : Res (Record × Pipeline) :=
  match rem with
  | [] => .ok ((result, p), tr)
  | st :: rest =>
      match resolveStageInputs fuel p.data_records p.transforms parent st.get_inputs [] tr with
      | .error e => .error e
      | .ok ((required, records1, transforms1), tr1) =>
          let p1 := (p.withRecords records1).withTransforms transforms1
          -- `stage.run(required_inputs, self)`: the parent seen by the
          -- child stage is `self`, never None
          match runSt st required (some ()) tr1 with
          | .error e => .error e
          | .ok ((sres, st'), tr2) =>
              let p2 := (p1.withStages (p1.stages.set i st')).withRecords
                (dictUpdate p1.data_records sres)
              stagesLoopWith runSt fuel p2 parent rest (i + 1) sres tr2

/-- The post-validation body of `Pipeline._run` (pipeline_base.py:384-397):
merge the initial record and fold over the stage list. -/
def pipelineRunBodyWith (runSt : StageRunner) (fuel : Nat) (p : Pipeline)
    (parent : Option Unit) (inputs : Record) (tr : Trace) : Res (Record × Pipeline) :=
  let p1 := p.withRecords (dictUpdate p.data_records inputs)
  stagesLoopWith runSt fuel p1 parent p1.stages 0 [] tr

/-- `PipelineBranch.run` (pipeline_base.py:447-449): `Pipeline._run` with the
branch's (empty, always passing) stage-level validation schema — see the MRO
note above — then the **entire** local store is returned, unfiltered. -/
def runBranchWith (runSt : StageRunner) (fuel : Nat) (b : PipelineBranch) (inputs : Record)
    (parent : Option Unit) (tr : Trace) : Res (Record × PipelineBranch) :=
  match validateInputs [] inputs with
  | .error e => .error (e, tr)
  | .ok () =>
      match pipelineRunBodyWith runSt fuel b.pipe parent inputs tr with
      | .error e => .error e
      | .ok ((_, p'), tr') => .ok ((p'.data_records, .mk p'), tr')

/-- The `for value, branch in self.cases` loop of `MatchCaseBranch.run`
(pipeline_base.py:499-505): the first case whose value `==` the match value
runs and the loop breaks; skipped cases contribute nothing.  Returns the
merged result so far, the case list with the executed branch's updated
state, and the `matched` flag. -/
def runCasesLoopWith (runBr : BranchRunner) (cases : List (PValue × PipelineBranch))
    (match_value : PValue) (inputs : Record) (parent : Option Unit) (tr : Trace) :
    Res (Record × List (PValue × PipelineBranch) × Bool) :=
  match cases with
  | [] => .ok (([], [], false), tr)
  | (v, br) :: rest =>
      if pyEq v match_value then
        match runBr br inputs parent tr with
        | .error e => .error e
        | .ok ((cres, br'), tr1) => .ok ((dictUpdate [] cres, (v, br') :: rest, true), tr1)
      else
        match runCasesLoopWith runBr rest match_value inputs parent tr with
        | .error e => .error e
        | .ok ((res, rest', matched), tr1) => .ok ((res, (v, br) :: rest', matched), tr1)

/-- `MatchCaseBranch.run` (pipeline_base.py:494-517): fetch the key with
`dict.get` (missing → `None`), run the first equal case, else the default,
then always the finally arm, merging each arm's full scope into `result` in
execution order. -/
def runMatchWith (runBr : BranchRunner) (m : MatchCaseBranch) (inputs : Record)
    (parent : Option Unit) (tr : Trace) : Res (Record × MatchCaseBranch) :=
  let match_value := (dictGet? inputs m.key_name).getD PValue.vnone
  match runCasesLoopWith runBr m.cases match_value inputs parent tr with
  | .error e => .error e
  | .ok ((result, cases', matched), tr1) =>
      let afterDefault : Res (Record × Option PipelineBranch) :=
        if matched then .ok ((result, m.default_branch), tr1)
        else
          match m.default_branch with
          | none => .ok ((result, none), tr1)
          | some db =>
              match runBr db inputs parent tr1 with
              | .error e => .error e
              | .ok ((dres, db'), tr2) => .ok ((dictUpdate result dres, some db'), tr2)
      match afterDefault with
      | .error e => .error e
      | .ok ((result2, dflt'), tr2) =>
          match m.finally_branch with
          | none => .ok ((result2, .mk m.key_name cases' dflt' none), tr2)
          | some fb =>
              match runBr fb inputs parent tr2 with
              | .error e => .error e
              | .ok ((fres, fb'), tr3) =>
                  .ok ((dictUpdate result2 fres, .mk m.key_name cases' dflt' (some fb')), tr3)

/-- Dispatch of `stage.run(required_inputs, self)` over the stage variants
(pipeline_base.py:280, 447, 494), tying the late-bound knot; one unit of fuel
per nesting level of branches. -/
def PStage.runStage : Nat → PStage → Record → Option Unit → Trace → Res (Record × PStage)
  | 0, _, _, _, tr => .error (.recursionError, tr)
  | fuel + 1, st, inputs, parent, tr =>
      match st with
      | .func fs =>
          match fs.run inputs tr with
          | .error e => .error e
          | .ok ((r, fs'), tr') => .ok ((r, .func fs'), tr')
      | .branch b =>
          match runBranchWith (PStage.runStage fuel) (fuel + 1) b inputs parent tr with
          | .error e => .error e
          | .ok ((r, b'), tr') => .ok ((r, .branch b'), tr')
      | .matchCase m =>
          match runMatchWith (runBranchWith (PStage.runStage fuel) (fuel + 1))
              m inputs parent tr with
          | .error e => .error e
          | .ok ((r, m'), tr') => .ok ((r, .matchCase m'), tr')

/-- `PipelineBranch.run` with the stage runner tied. -/
def PipelineBranch.runBranch (fuel : Nat) (b : PipelineBranch) (inputs : Record)
    (parent : Option Unit) (tr : Trace) : Res (Record × PipelineBranch) :=
  runBranchWith (PStage.runStage fuel) (fuel + 1) b inputs parent tr

/-- `MatchCaseBranch.run` with the branch runner tied. -/
def MatchCaseBranch.runMatch (fuel : Nat) (m : MatchCaseBranch) (inputs : Record)
    (parent : Option Unit) (tr : Trace) : Res (Record × MatchCaseBranch) :=
  runMatchWith (PipelineBranch.runBranch fuel) m inputs parent tr

/-- `Pipeline._run` (pipeline_base.py:382-397) for a plain `Pipeline`:
validate the initial record against `self.dependencies`, merge it, run the
stages in order. -/
def Pipeline.runUnder (fuel : Nat) (p : Pipeline) (parent : Option Unit) (inputs : Record)
    (tr : Trace) : Res (Record × Pipeline) :=
  match validateInputs p.dependencies inputs with
  | .error e => .error (e, tr)
  | .ok () =>
      pipelineRunBodyWith (PStage.runStage fuel) fuel p parent inputs tr

/-- `Pipeline.run` (pipeline_base.py:399-402): `_run`, then project the
whole store onto the keys of the declared output schema. -/
def Pipeline.run (fuel : Nat) (p : Pipeline) (parent : Option Unit) (inputs : Record)
    (tr : Trace) : Res (Record × Pipeline) :=
  match Pipeline.runUnder fuel p parent inputs tr with
  | .error e => .error e
  | .ok ((_, p'), tr') =>
      .ok ((p'.data_records.filter (fun kv => (dictKeys p'.outputs).contains kv.1), p'), tr')

/-! ## The pipeline of `src/testing.py`

The five decorated functions and the builder chain of testing.py:23-33.
Bodies that `print` have no effect on the modelled state beyond the
invocation trace; the `PValue` fallbacks for ill-typed arguments are
unreachable because validation precedes every call. -/

/-- `double(x: int) -> int: return x * 2` (testing.py:3-5). -/
def doubleFunc : PyFunc where
  name := "double"
  params := [("x", some PType.tint)]
  retAnn := .primAnn .tint
  impl := fun r =>
    match dictGet? r "x" with
    | some (.vint n) => .rscalar (.vint (n * 2))
    | _ => .rscalar .vnone

/-- `add_one(x2: int) -> int: return x2 + 1` (testing.py:7-9). -/
def add_oneFunc : PyFunc where
  name := "add_one"
  params := [("x2", some PType.tint)]
  retAnn := .primAnn .tint
  impl := fun r =>
    match dictGet? r "x2" with
    | some (.vint n) => .rscalar (.vint (n + 1))
    | _ => .rscalar .vnone

/-- `display_success() -> None` (testing.py:11-13). -/
def display_successFunc : PyFunc where
  name := "display_success"
  params := []
  retAnn := .noneAnn
  impl := fun _ => .rscalar .vnone

/-- `display_failure() -> None` (testing.py:15-17). -/
def display_failureFunc : PyFunc where
  name := "display_failure"
  params := []
  retAnn := .noneAnn
  impl := fun _ => .rscalar .vnone

/-- `display_values(x: int, x2: int, x2plus1: int) -> None` (testing.py:19-21). -/
def display_valuesFunc : PyFunc where
  name := "display_values"
  params := [("x", some PType.tint), ("x2", some PType.tint), ("x2plus1", some PType.tint)]
  retAnn := .noneAnn
  impl := fun _ => .rscalar .vnone

/-- The `main` pipeline of testing.py:23-33: dependency `{x: int}`,
transformer `double`, stage `add_one`, then the match node on `x2plus1` with
`case(11) → display_success`, `default → display_failure`,
`finally → display_values`. -/
def testingMain : Except PyErr Pipeline := do
  let dbl ← transformerDec { func := doubleFunc } none none (some "x2") none
  let a1 ← stageDec { func := add_oneFunc } none none (some "x2plus1") none
  let ds ← stageDec { func := display_successFunc } none none none none
  let df ← stageDec { func := display_failureFunc } none none none none
  let dv ← stageDec { func := display_valuesFunc } none none none none
  let p := (Pipeline.init none none).dependency [("x", PType.tint)]
  let p ← p.transformer (.fromCallable dbl)
  let p ← p.stage (.fromCallable a1)
  let successBranch ← PipelineBranch.init.stage (.fromCallable ds)
  let failureBranch ← PipelineBranch.init.stage (.fromCallable df)
  let valuesBranch ← PipelineBranch.init.stage (.fromCallable dv)
  p.matchOn "x2plus1"
    (fun m => ((m.case (.vint 11) successBranch).default failureBranch).setFinally valuesBranch)

/-- `main.run({"x": 5})` (testing.py:35): the returned record together with
the invocation trace of the run. -/
def testingRunResult : Option (Record × Trace) :=
  match testingMain with
  | .error _ => none
  | .ok p =>
      match Pipeline.run 100 p none [("x", PValue.vint 5)] [] with
      | .error _ => none
      | .ok ((r, _), tr) => some (r, tr)



/-- The `PipelineTransformer` object that `.transformer(double)` registers
for the decorated `double` of testing.py (schemas inferred from the
signature and the `output_name="x2"` override). -/
def doubleTransformer : PipelineTransformer :=
  { func := { func := doubleFunc, pipeline_transformer := true,
              pipeline_inputs := [("x", PType.tint)],
              pipeline_outputs := [("x2", PType.tint)],
              pipeline_unwrap_inputs := true },
    inputs := [("x", PType.tint)], outputs := [("x2", PType.tint)],
    unwrap_inputs := true, cached := false }

/-! ## Reference definitions used by the verification

`dispatchReferenceWith` restates the conditional-dispatch semantics from the
specification's wording; the claim theorems prove the source translation
equal to it.  The `dictWF` predicates say that every dict a transformer's
underlying function returns (and every memoized result) is a real Python
dict, i.e. has no duplicate keys — automatically true of any actual Python
execution, where dicts cannot hold duplicate keys. -/

/-- Conditional dispatch as the specification words it (§4.5): select the
first case in declaration order whose value equals the resolved key, else
the default arm if one is registered; run only the selected arm (none at
all when neither exists — not an error), then always the finally arm, and
merge the results in execution order. -/
def dispatchReferenceWith (runBr : BranchRunner) (m : MatchCaseBranch) (inputs : Record)
    (parent : Option Unit) (tr : Trace) : Res (Record × MatchCaseBranch) :=
  let match_value := (dictGet? inputs m.key_name).getD PValue.vnone
  let selection : Res (Record × List (PValue × PipelineBranch) × Bool) :=
    match m.cases.dropWhile (fun c => !(pyEq c.1 match_value)) with
    | [] => .ok (([], m.cases, false), tr)
    | (v, br) :: post =>
        match runBr br inputs parent tr with
        | .error e => .error e
        | .ok ((cres, br'), tr1) =>
            .ok ((dictUpdate [] cres,
              m.cases.takeWhile (fun c => !(pyEq c.1 match_value)) ++ (v, br') :: post,
              true), tr1)
  match selection with
  | .error e => .error e
  | .ok ((result, cases', matched), tr1) =>
      let afterDefault : Res (Record × Option PipelineBranch) :=
        if matched then .ok ((result, m.default_branch), tr1)
        else
          match m.default_branch with
          | none => .ok ((result, none), tr1)
          | some db =>
              match runBr db inputs parent tr1 with
              | .error e => .error e
              | .ok ((dres, db'), tr2) => .ok ((dictUpdate result dres, some db'), tr2)
      match afterDefault with
      | .error e => .error e
      | .ok ((result2, dflt'), tr2) =>
          match m.finally_branch with
          | none => .ok ((result2, .mk m.key_name cases' dflt' none), tr2)
          | some fb =>
              match runBr fb inputs parent tr2 with
              | .error e => .error e
              | .ok ((fres, fb'), tr3) =>
                  .ok ((dictUpdate result2 fres, .mk m.key_name cases' dflt' (some fb')), tr3)

/-- A returned value is dict-well-formed when, if it is a dict, its keys are
duplicate-free (true of every value an actual Python execution can return). -/
def PyResult.dictWF : PyResult → Prop
  | .rdict items => (dictKeys items).Nodup
  | _ => True

/-- A transformer is well-formed when its underlying function only returns
dict-well-formed values and its memo table only stores such values. -/
def TransWF (t : PipelineTransformer) : Prop :=
  (∀ inp, (t.func.func.impl inp).dictWF) ∧ ∀ e ∈ t.func.cacheTable, e.2.dictWF

/-- A resolver preserves transformer well-formedness across a successful
resolution. -/
def ResolverWF (res : Resolver) : Prop :=
  ∀ rc tf d tr v rc' tf' tr',
    (∀ t ∈ tf, TransWF t) → res rc tf d tr = .ok ((v, rc', tf'), tr') →
    ∀ t' ∈ tf', TransWF t'

/-! # Theorems

The dict lemmas below support the claim theorems that follow them. -/

/-! ## Dict lemmas -/

theorem dictGet?_dictInsert_self {α : Type} (d : List (String × α)) (k : String) (v : α) :
    dictGet? (dictInsert d k v) k = some v := by
  induction d with
  | nil => simp [dictInsert, dictGet?]
  | cons hd tl ih =>
      by_cases h : hd.1 = k
      · simp [dictInsert, h, dictGet?]
      · simp [dictInsert, h, dictGet?, ih]

theorem dictGet?_dictInsert_ne {α : Type} (d : List (String × α)) (k k' : String) (v : α)
    (h : k' ≠ k) : dictGet? (dictInsert d k v) k' = dictGet? d k' := by
  induction d with
  | nil =>
      simp only [dictInsert, dictGet?]
      rw [if_neg (fun h' => h h'.symm)]
  | cons hd tl ih =>
      by_cases hh : hd.1 = k
      · subst hh
        simp only [dictInsert, if_pos rfl, dictGet?]
        rw [if_neg (fun h' => h h'.symm), if_neg (fun h' => h h'.symm)]
      · simp only [dictInsert, if_neg hh, dictGet?]
        by_cases hk' : hd.1 = k'
        · simp [hk']
        · simp [hk', ih]

theorem dictGet?_eq_none_of_not_mem {α : Type} (d : List (String × α)) (k : String)
    (h : k ∉ dictKeys d) : dictGet? d k = none := by
  induction d with
  | nil => rfl
  | cons hd tl ih =>
      simp only [dictKeys, List.map_cons, List.mem_cons] at h
      push_neg at h
      simp only [dictGet?]
      rw [if_neg (fun h' => h.1 h'.symm)]
      exact ih (by simpa [dictKeys] using h.2)

theorem dictGet?_dictUpdate_of_get_none {α : Type} (d e : List (String × α)) (k : String)
    (h : dictGet? e k = none) : dictGet? (dictUpdate d e) k = dictGet? d k := by
  induction e generalizing d with
  | nil => simp [dictUpdate]
  | cons hd tl ih =>
      simp only [dictGet?] at h
      by_cases hh : hd.1 = k
      · simp [hh] at h
      · rw [if_neg hh] at h
        simp only [dictUpdate, List.foldl_cons] at *
        rw [ih (dictInsert d hd.1 hd.2) h, dictGet?_dictInsert_ne]
        exact fun h' => hh h'.symm

theorem dictGet?_dictUpdate_of_get_some {α : Type} (d e : List (String × α)) (k : String) (v : α)
    (hnd : (dictKeys e).Nodup) (h : dictGet? e k = some v) :
    dictGet? (dictUpdate d e) k = some v := by
  induction e generalizing d with
  | nil => simp [dictGet?] at h
  | cons hd tl ih =>
      simp only [dictKeys, List.map_cons, List.nodup_cons] at hnd
      simp only [dictGet?] at h
      by_cases hh : hd.1 = k
      · rw [if_pos hh] at h
        subst hh
        have htl : dictGet? tl hd.1 = none :=
          dictGet?_eq_none_of_not_mem _ _ (by simpa [dictKeys] using hnd.1)
        simp only [dictUpdate, List.foldl_cons]
        have := dictGet?_dictUpdate_of_get_none (dictInsert d hd.1 hd.2) tl hd.1 htl
        simp only [dictUpdate] at this
        rw [this, dictGet?_dictInsert_self]
        exact h.symm ▸ rfl
      · rw [if_neg hh] at h
        simp only [dictUpdate, List.foldl_cons]
        exact ih (dictInsert d hd.1 hd.2) hnd.2 h

theorem dictKeys_dictInsert_sub {α : Type} (d : List (String × α)) (k k' : String) (v : α)
    (h : k' ∈ dictKeys (dictInsert d k v)) : k' = k ∨ k' ∈ dictKeys d := by
  induction d with
  | nil => simpa [dictInsert, dictKeys] using h
  | cons hd tl ih =>
      by_cases hh : hd.1 = k
      · simp only [dictInsert, if_pos hh, dictKeys, List.map_cons, List.mem_cons] at h ⊢
        rcases h with h | h
        · exact Or.inl h
        · exact Or.inr (Or.inr h)
      · simp only [dictInsert, if_neg hh, dictKeys, List.map_cons, List.mem_cons] at h ⊢
        rcases h with h | h
        · exact Or.inr (Or.inl h)
        · rcases ih h with h | h
          · exact Or.inl h
          · exact Or.inr (Or.inr h)

theorem dictKeys_nodup_dictInsert {α : Type} (d : List (String × α)) (k : String) (v : α)
    (h : (dictKeys d).Nodup) : (dictKeys (dictInsert d k v)).Nodup := by
  induction d with
  | nil => simp [dictInsert, dictKeys]
  | cons hd tl ih =>
      simp only [dictKeys, List.map_cons, List.nodup_cons] at h
      by_cases hh : hd.1 = k
      · subst hh
        simpa [dictInsert, dictKeys] using h
      · simp only [dictInsert, if_neg hh, dictKeys, List.map_cons, List.nodup_cons]
        refine ⟨fun hmem => ?_, ih h.2⟩
        rcases dictKeys_dictInsert_sub tl k hd.1 v hmem with h' | h'
        · exact hh h'
        · exact h.1 h'

theorem dictKeys_nodup_dictUpdate {α : Type} (d e : List (String × α))
    (h : (dictKeys d).Nodup) : (dictKeys (dictUpdate d e)).Nodup := by
  induction e generalizing d with
  | nil => simpa [dictUpdate] using h
  | cons hd tl ih =>
      simp only [dictUpdate, List.foldl_cons] at *
      exact ih _ (dictKeys_nodup_dictInsert _ _ _ h)

theorem dictKeys_nodup_dictMake {α : Type} (items : List (String × α)) :
    (dictKeys (dictMake items)).Nodup :=
  dictKeys_nodup_dictUpdate [] items (by simp [dictKeys])
/-! ## C1: the testing.py linear pipeline -/

/-- C1: evaluating the embedded testing.py pipeline at `{x: 5}`.  The run
succeeds and invokes `double`, `add_one`, the matched case's
`display_success` and the finally arm's `display_values` — but returns the
empty record, not `{x2plus1: 11}` as the claim (and the comment on
testing.py:35) states: appending the match node overwrote the unpinned
output schema with the match node's output schema, which is empty because
every arm's tracked output schema is empty. -/
theorem testing_run_returns_empty_record :
    testingRunResult =
      some ([], ["double", "add_one", "display_success", "display_values"]) := by
  rfl

/-! ## C2: parent delegation in the resolver -/

/-- C2: the parent-delegation branch of `resolve_input` raises `TypeError`
(its delegation call omits the required `input` argument) instead of
delegating: a scope that cannot resolve `y` locally but has a parent raises
(first conjunct), even though a parent scope holding `y` resolves it fine on
its own (second conjunct). -/
theorem resolve_input_parent_delegation_raises :
    resolve_input 5 [] [] (some ()) ⟨PType.tany, "y"⟩ [] =
      .error (.typeError "resolve_input() missing 1 required positional argument: input", [])
    ∧ resolve_input 5 [("y", PValue.vint 1)] [] none ⟨PType.tany, "y"⟩ [] =
      .ok ((PValue.vint 1, [("y", PValue.vint 1)], []), []) :=
  ⟨rfl, rfl⟩

/-! ## C8: open-typed fields and validation -/

/-- C8: `normalize_io` does give the open type `Any` to list-declared input
names, and signature inference does the same for unannotated parameters —
but validating a *present* open-typed field raises `TypeError` (from
`isinstance(value, typing.Any)`) instead of accepting the value. -/
theorem open_typed_field_validation_raises :
    normalize_io (.slist ["a"]) = .ok [("a", PType.tany)]
    ∧ infer_input_types ⟨"plain_fn", [("a", none)], .absent, fun _ => .rscalar .vnone⟩ =
        [("a", PType.tany)]
    ∧ validateInputs [("a", PType.tany)] [("a", PValue.vint 1)] =
        .error (.typeError "typing.Any cannot be used with isinstance()") :=
  ⟨rfl, rfl, rfl⟩

/-! ## C9: namedtuple returns -/

/-- C9: a namedtuple return is not decomposed field-by-field.  Being a
tuple, it is captured by the sequence branch of `normalize_result` and
zipped positionally against the declared output names (first conjunct:
fields `x`, `y` land under declared names `a`, `b`), and an arity mismatch
with the declared outputs raises `ValueError` rather than decomposing
(second conjunct). -/
theorem namedtuple_result_zips_positionally :
    normalize_result (.rnamedtuple [("x", PValue.vint 1), ("y", PValue.vint 2)]) ["a", "b"]
        "s" = .ok [("a", PValue.vint 1), ("b", PValue.vint 2)]
    ∧ normalize_result (.rnamedtuple [("x", PValue.vint 1), ("y", PValue.vint 2)]) ["a"]
        "s" = .error (.valueError "s returned 2 values, but expected 1") :=
  ⟨rfl, rfl⟩

/-! ## C10: registering undecorated callables -/

/-- C10: registering a plain callable that was not decorated raises
`ValueError` immediately at registration time: `Pipeline.stage` through
`FunctionStage.__init__` when `_pipeline_stage` is absent, and
`Pipeline.transformer` through `PipelineTransformer.__init__` when
`_pipeline_transformer` is absent — no run is involved. -/
theorem register_undecorated_callable_raises (p : Pipeline) (f : DecoratedFun) :
    (f.pipeline_stage = false →
      p.stage (.fromCallable f) =
        .error (.valueError "function is not a stage must use the @stage decorator"))
    ∧ (f.pipeline_transformer = false →
      p.transformer (.fromCallable f) =
        .error (.valueError
          "function is not a transformer must use the @transformer or @provider decorators")) := by
  constructor
  · intro h
    simp [Pipeline.stage, FunctionStage.create, h, Except.map]
  · intro h
    simp [Pipeline.transformer, PipelineTransformer.create, h, Except.map]

/-- C10 witness: a concrete undecorated callable is rejected by both
registration paths. -/
theorem register_undecorated_callable_raises_witness :
    ((Pipeline.init none none).stage
        (.fromCallable { func := ⟨"plain_fn", [("a", none)], .absent, fun _ => .rscalar .vnone⟩ }) =
      .error (.valueError "function is not a stage must use the @stage decorator"))
    ∧ ((Pipeline.init none none).transformer
        (.fromCallable { func := ⟨"plain_fn", [("a", none)], .absent, fun _ => .rscalar .vnone⟩ }) =
      .error (.valueError
        "function is not a transformer must use the @transformer or @provider decorators")) :=
  ⟨(register_undecorated_callable_raises _ _).1 rfl,
   (register_undecorated_callable_raises _ _).2 rfl⟩

/-! ## C5: missing top-level dependencies -/

/-- C5 counterexample: dependencies `{a: int, b: int}` and initial record
`{a: "s"}`.  The required key `b` is missing (first conjunct), yet the run
raises the type-mismatch `TypeError` for `a` — validation walks the
declaration order and hits `a`'s failed type check first — not the
missing-input `KeyError` the claim promises for every missing-key record. -/
theorem missing_dependency_can_raise_type_error_first :
    dictGet? [("a", PValue.vstr "s")] "b" = none
    ∧ Pipeline.run 5 (Pipeline.init (some [("a", PType.tint), ("b", PType.tint)]) none) none
        [("a", PValue.vstr "s")] [] =
      .error (.typeError "Expected type mismatch for a", []) :=
  ⟨rfl, rfl⟩

/-- C5 amended: when the first violated dependency in declaration order is a
missing key — every dependency declared before `k` is present with its
declared type, and `k` is absent — the run raises the missing-input
`KeyError` for `k` with the invocation trace untouched: no Runnable was
invoked and no stage side effect is observable. -/
theorem missing_dependency_raises_before_any_stage
    (fuel : Nat) (p : Pipeline) (parent : Option Unit) (inputs : Record) (tr : Trace)
    (pre rest : Schema) (k : String) (t : PType)
    (hdeps : p.dependencies = pre ++ (k, t) :: rest)
    (hmiss : dictGet? inputs k = none)
    (hpre : ∀ q ∈ pre, ∃ v, dictGet? inputs q.1 = some v ∧ isinstance v q.2 = .ok true) :
    Pipeline.run fuel p parent inputs tr =
      .error (.keyError ("Missing required input: " ++ k), tr) := by
  have hv : validateInputs p.dependencies inputs =
      .error (.keyError ("Missing required input: " ++ k)) := by
    rw [hdeps]
    clear hdeps
    induction pre with
    | nil => simp [validateInputs, hmiss]
    | cons q qs ih =>
        obtain ⟨v, hvq, hinst⟩ := hpre q (List.mem_cons_self _ _)
        simp only [List.cons_append, validateInputs, hvq, hinst]
        exact ih (fun q' hq' => hpre q' (List.mem_cons_of_mem _ hq'))
  unfold Pipeline.run Pipeline.runUnder
  rw [hv]

/-- C5 witness: dependencies `{a: int, b: int}` with input `{a: 1}` abort
with the missing-input error for `b` and an untouched trace. -/
theorem missing_dependency_raises_before_any_stage_witness :
    Pipeline.run 5 (Pipeline.init (some [("a", PType.tint), ("b", PType.tint)]) none) none
        [("a", PValue.vint 1)] [] =
      .error (.keyError "Missing required input: b", []) :=
  missing_dependency_raises_before_any_stage 5 _ none _ [] [("a", PType.tint)] [] "b"
    PType.tint rfl rfl
    (by
      intro q hq
      simp only [List.mem_singleton] at hq
      subst hq
      exact ⟨PValue.vint 1, rfl, rfl⟩)

/-! ## C6: output-arity mismatch is an invocation-time error -/

/-- C6: declaring exactly one output name (`outputs=["n"]`) for a stage
whose function returns a 2-element sequence succeeds at decoration time
(first conjunct) and at registration time (second conjunct); the arity
`ValueError` is raised only when the stage is invoked (third conjunct). -/
theorem single_output_pair_return_raises_at_invocation
    (f : DecoratedFun) (n : String) (inputs : Record) (a b : PValue) (tr : Trace)
    (hval : validateInputs (infer_input_types f.func) inputs = .ok ())
    (himpl : f.func.impl inputs = .rtuple [a, b])
    (hnc : f.pipeline_cache = false) :
    ∃ d fs, stageDec f none (some (.slist [n])) none none = .ok d
      ∧ FunctionStage.create d = .ok fs
      ∧ fs.run inputs tr =
          .error (.valueError (f.func.name ++ " returned 2 values, but expected 1"),
            tr ++ [f.func.name]) := by
  refine ⟨_, _, rfl, rfl, ?_⟩
  simp only [FunctionStage.run, hval, callFunc, hnc, Bool.false_eq_true, if_false, himpl,
    normalize_result, dictKeys, List.map, List.length]
  norm_num
  rw [show toString (2 : Nat) = "2" from rfl, show toString (1 : Nat) = "1" from rfl]
  simp only [String.append_assoc]
  rfl

/-- C6 witness: a concrete stage declared with the single output name `"n"`
whose function returns a pair: decoration and registration succeed, the
invocation raises the arity `ValueError`. -/
theorem single_output_pair_return_raises_at_invocation_witness :
    ∃ d fs,
      stageDec { func := ⟨"pair_fn", [], .absent,
          fun _ => .rtuple [PValue.vint 1, PValue.vint 2]⟩ }
        none (some (.slist ["n"])) none none = .ok d
      ∧ FunctionStage.create d = .ok fs
      ∧ fs.run [] [] =
          .error (.valueError ("pair_fn" ++ " returned 2 values, but expected 1"),
            [] ++ ["pair_fn"]) :=
  single_output_pair_return_raises_at_invocation
    { func := ⟨"pair_fn", [], .absent, fun _ => .rtuple [PValue.vint 1, PValue.vint 2]⟩ }
    "n" [] (PValue.vint 1) (PValue.vint 2) [] rfl rfl rfl

/-! ## C7: memoized stages -/

theorem pyEq_refl (v : PValue) : pyEq v v = true := by
  cases v <;> simp [pyEq]

theorem pyEqRecord_refl (r : Record) : pyEqRecord r r = true := by
  induction r with
  | nil => rfl
  | cons e rest ih =>
      obtain ⟨k, v⟩ := e
      simp [pyEqRecord, pyEq_refl, ih]

theorem lruLookup_none_mem (table : List (Record × PyResult)) (k : Record)
    (h : lruLookup table k = none) : ∀ e ∈ table, pyEqRecord e.1 k = false := by
  intro e he
  unfold lruLookup at h
  cases hf : table.find? (fun e => pyEqRecord e.1 k) with
  | some e' => rw [hf] at h; cases h
  | none =>
      have h2 := List.find?_eq_none.mp hf e he
      simpa using h2

theorem lruLookup_lruInsert_self (table : List (Record × PyResult)) (k : Record)
    (r : PyResult) (m : Option Nat) (hm : m ≠ some 0) :
    lruLookup (lruInsert table k r m) k = some r := by
  unfold lruInsert
  cases m with
  | none => simp [lruLookup, List.find?, pyEqRecord_refl]
  | some mm =>
      cases mm with
      | zero => exact absurd rfl hm
      | succ mm' =>
          show lruLookup (((k, r) :: table).take (mm' + 1)) k = some r
          rw [List.take_succ_cons]
          simp [lruLookup, List.find?, pyEqRecord_refl]

theorem lruTouch_lruInsert (table : List (Record × PyResult)) (k : Record) (r : PyResult)
    (m : Option Nat) (hmiss : lruLookup table k = none) :
    lruTouch (lruInsert table k r m) k = lruInsert table k r m := by
  have hmem := lruLookup_none_mem table k hmiss
  have key : ∀ rest : List (Record × PyResult), rest ⊆ table →
      lruTouch ((k, r) :: rest) k = (k, r) :: rest := by
    intro rest hsub
    unfold lruTouch
    have hfind : ((k, r) :: rest).find? (fun e => pyEqRecord e.1 k) = some (k, r) := by
      simp [List.find?, pyEqRecord_refl]
    rw [hfind]
    have hfilter : ((k, r) :: rest).filter (fun e' => ! pyEqRecord e'.1 k) = rest := by
      rw [List.filter_cons]
      have hhead : (! pyEqRecord (k, r).1 k) = false := by simp [pyEqRecord_refl]
      rw [hhead]
      simp only [Bool.false_eq_true, if_false]
      exact List.filter_eq_self.mpr (fun a ha => by
        simp [hmem a (hsub ha)])
    rw [hfilter]
  cases m with
  | none => exact key table (fun x hx => hx)
  | some mm =>
      cases mm with
      | zero => simp [lruInsert, lruTouch, List.take]
      | succ mm' =>
          have hins : lruInsert table k r (some (mm' + 1)) = (k, r) :: table.take mm' := by
            simp [lruInsert, List.take_succ_cons]
          rw [hins]
          exact key _ (List.take_subset _ _)

/-- C7 counterexample: a cacheable stage whose inputs were declared
explicitly (`_unwrap_inputs = False`, so invocation is `self._func(inputs)`)
raises `TypeError` on every invocation: the lru_cache wrapper cannot hash
the aggregated dict argument.  The trace stays untouched, so the underlying
function executes zero times — not once — and no stored output is ever
returned, refuting the claim for this constructible cacheable stage. -/
theorem cached_explicit_inputs_stage_always_raises :
    FunctionStage.run { func := cacheDec { func := ⟨"cached_expl", [], .absent, fun _ => .rscalar (.vint 7)⟩ }, inputs := [], outputs := [("y", PType.tany)], unwrap_inputs := false, cached := true } [] [] =
      .error (.typeError "unhashable type: dict", [])
    ∧ FunctionStage.run { func := cacheDec { func := ⟨"cached_expl", [], .absent, fun _ => .rscalar (.vint 7)⟩ }, inputs := [], outputs := [("y", PType.tany)], unwrap_inputs := false, cached := true } [] ["t"] =
      .error (.typeError "unhashable type: dict", ["t"]) :=
  ⟨rfl, rfl⟩

/-- C7 amended: for a cacheable stage whose invocation unpacks keyword
arguments (`_unwrap_inputs = True`, the signature-inferred-inputs mode — the
aggregated-dict calling convention instead raises `TypeError` from the lru
wrapper, see the counterexample), an invocation on inputs not yet memoized
executes the underlying function (extending the trace) and stores the
result; a second invocation with the identical resolved inputs returns the
same output with the trace untouched — the function does not execute — and
leaves the stage state unchanged; after `clear_cache()`, the same invocation
executes the function again. -/
theorem cacheable_stage_executes_once
    (fs : FunctionStage) (inputs out : Record) (tr tr2 tr3 : Trace)
    (hc : fs.cached = true) (hcf : fs.func.pipeline_cache = true)
    (hunw : fs.unwrap_inputs = true)
    (hmax : fs.func.cacheMaxsize ≠ some 0)
    (hmiss : lruLookup fs.func.cacheTable inputs = none)
    (hval : validateInputs fs.inputs inputs = .ok ())
    (hnorm : normalize_result (fs.func.func.impl inputs) (dictKeys fs.outputs)
        fs.func.func.name = .ok out) :
    ∃ fs1, fs.run inputs tr = .ok ((out, fs1), tr ++ [fs.func.func.name])
      ∧ fs1.run inputs tr2 = .ok ((out, fs1), tr2)
      ∧ ∃ fs3, (FunctionStage.clear_cache fs1).run inputs tr3 =
          .ok ((out, fs3), tr3 ++ [fs.func.func.name]) := by
  refine ⟨{ fs with func := { fs.func with cacheTable := lruInsert fs.func.cacheTable inputs (fs.func.func.impl inputs) fs.func.cacheMaxsize } }, ?_, ?_, ?_⟩
  · simp only [FunctionStage.run, hval, callFunc, hcf, hunw, if_true, hmiss, hnorm]
  · simp only [FunctionStage.run, hval, callFunc, hcf, hunw, if_true,
      lruLookup_lruInsert_self _ _ _ _ hmax,
      lruTouch_lruInsert _ _ _ _ hmiss, hnorm]
  · refine ⟨{ fs with func := { fs.func with cacheTable := lruInsert [] inputs (fs.func.func.impl inputs) fs.func.cacheMaxsize } }, ?_⟩
    simp only [FunctionStage.clear_cache, hc, if_true, FunctionStage.run, hval, callFunc,
      hcf, hunw, lruLookup, List.find?, hnorm]

/-- C7 witness: a concrete cached keyword-unpacking stage returning 7 under
output name `y`: first call executes, identical second call answers from the
memo with the trace untouched, and after `clear_cache()` the call executes
again. -/
theorem cacheable_stage_executes_once_witness :
    ∃ fs1, FunctionStage.run { func := cacheDec { func := ⟨"cached_fn", [], .absent, fun _ => .rscalar (.vint 7)⟩ }, inputs := [], outputs := [("y", PType.tany)], unwrap_inputs := true, cached := true } [] [] = .ok (([("y", PValue.vint 7)], fs1), ["cached_fn"])
      ∧ fs1.run [] ["t2"] = .ok (([("y", PValue.vint 7)], fs1), ["t2"])
      ∧ ∃ fs3, (FunctionStage.clear_cache fs1).run [] [] =
          .ok (([("y", PValue.vint 7)], fs3), ["cached_fn"]) :=
  cacheable_stage_executes_once _ [] [("y", PValue.vint 7)] [] ["t2"] [] rfl rfl rfl
    (by decide) rfl rfl rfl

/-! ## C4: conditional dispatch -/

/-- First-match characterization of the case loop: the skipped prefix (every
case whose value does not equal the match value) contributes nothing — no
branch body runs, no state changes — and the first matching case, if any, is
the only one that runs. -/
theorem runCasesLoopWith_eq (runBr : BranchRunner) (cases : List (PValue × PipelineBranch))
    (mv : PValue) (inputs : Record) (parent : Option Unit) (tr : Trace) :
    runCasesLoopWith runBr cases mv inputs parent tr =
      match cases.dropWhile (fun c => !(pyEq c.1 mv)) with
      | [] => .ok (([], cases, false), tr)
      | (v, br) :: post =>
          match runBr br inputs parent tr with
          | .error e => .error e
          | .ok ((cres, br'), tr1) =>
              .ok ((dictUpdate [] cres,
                cases.takeWhile (fun c => !(pyEq c.1 mv)) ++ (v, br') :: post, true), tr1) := by
  induction cases with
  | nil => rfl
  | cons hd rest ih =>
      obtain ⟨v, br⟩ := hd
      cases h : pyEq v mv with
      | true =>
          simp only [runCasesLoopWith, h, if_true, List.dropWhile_cons, List.takeWhile_cons,
            Bool.not_true, Bool.false_eq_true, if_false, List.nil_append]
      | false =>
          simp only [runCasesLoopWith, h, Bool.false_eq_true, if_false, List.dropWhile_cons,
            List.takeWhile_cons, Bool.not_false, if_true]
          rw [ih]
          cases hdw : rest.dropWhile (fun c => !(pyEq c.1 mv)) with
          | nil => rfl
          | cons c post =>
              obtain ⟨v2, br2⟩ := c
              cases hbr : runBr br2 inputs parent tr with
              | error e => simp [hbr]
              | ok res =>
                  obtain ⟨⟨cres, br2'⟩, tr1⟩ := res
                  simp [hbr]

/-- C4: a conditional dispatch node run has exactly the specification's
dispatch semantics.  First conjunct: the embedded `MatchCaseBranch.run`
equals the reference dispatcher `dispatchReferenceWith`, which runs at most
one of {first case in declaration order whose value equals the resolved
key, default}; skipped cases contribute nothing, the default runs only when
no case matched, running neither (no match, no default) is not an error,
and the finally arm (if registered) always runs last, results merged in
execution order.  Second conjunct: whenever a finally arm is registered and
the run succeeds, the finally arm's run ends exactly at the run's final
trace (it ran last), the merged result is the earlier result updated with
the finally arm's record, and on a field-name collision the finally arm's
value is the one visible. -/
theorem matchCaseBranch_dispatch (runBr : BranchRunner) (m : MatchCaseBranch)
    (inputs : Record) (parent : Option Unit) (tr : Trace) :
    runMatchWith runBr m inputs parent tr = dispatchReferenceWith runBr m inputs parent tr
    ∧ (∀ res m' tr' fb, m.finally_branch = some fb →
        runMatchWith runBr m inputs parent tr = .ok ((res, m'), tr') →
        ∃ res2 fres fb' trf,
          runBr fb inputs parent trf = .ok ((fres, fb'), tr')
          ∧ res = dictUpdate res2 fres
          ∧ ∀ k w, (dictKeys fres).Nodup → dictGet? fres k = some w →
              dictGet? res k = some w) := by
  constructor
  · simp only [runMatchWith, dispatchReferenceWith]
    rw [runCasesLoopWith_eq]
  · intro res m' tr' fb hfb hrun
    simp only [runMatchWith, hfb] at hrun
    cases hcl : runCasesLoopWith runBr m.cases ((dictGet? inputs m.key_name).getD PValue.vnone)
        inputs parent tr with
    | error e => simp [hcl] at hrun
    | ok r1 =>
        obtain ⟨⟨result, cases', matched⟩, tr1⟩ := r1
        rw [hcl] at hrun
        cases matched with
        | true =>
            simp only [if_true] at hrun
            cases hf : runBr fb inputs parent tr1 with
            | error e => simp [hf] at hrun
            | ok r2 =>
                obtain ⟨⟨fres, fb'⟩, tr3⟩ := r2
                simp only [hf] at hrun
                obtain ⟨⟨hres, hm'⟩, htr⟩ := by
                  simpa using hrun
                exact ⟨result, fres, fb', tr1, by rw [htr] at hf; exact hf, hres.symm,
                  fun k w hnd hget => by
                    rw [← hres]
                    exact dictGet?_dictUpdate_of_get_some _ _ _ _ hnd hget⟩
        | false =>
            cases hdb : m.default_branch with
            | none =>
                simp only [hdb, Bool.false_eq_true, if_false] at hrun
                cases hf : runBr fb inputs parent tr1 with
                | error e => simp [hf] at hrun
                | ok r2 =>
                    obtain ⟨⟨fres, fb'⟩, tr3⟩ := r2
                    simp only [hf] at hrun
                    obtain ⟨⟨hres, hm'⟩, htr⟩ := by
                      simpa using hrun
                    exact ⟨result, fres, fb', tr1, by rw [htr] at hf; exact hf, hres.symm,
                      fun k w hnd hget => by
                        rw [← hres]
                        exact dictGet?_dictUpdate_of_get_some _ _ _ _ hnd hget⟩
            | some db =>
                simp only [hdb, Bool.false_eq_true, if_false] at hrun
                cases hd : runBr db inputs parent tr1 with
                | error e => simp [hd] at hrun
                | ok r2 =>
                    obtain ⟨⟨dres, db'⟩, tr2⟩ := r2
                    simp only [hd] at hrun
                    cases hf : runBr fb inputs parent tr2 with
                    | error e => simp [hf] at hrun
                    | ok r3 =>
                        obtain ⟨⟨fres, fb'⟩, tr3⟩ := r3
                        simp only [hf] at hrun
                        obtain ⟨⟨hres, hm'⟩, htr⟩ := by
                          simpa using hrun
                        exact ⟨dictUpdate result dres, fres, fb', tr2,
                          by rw [htr] at hf; exact hf, hres.symm,
                          fun k w hnd hget => by
                            rw [← hres]
                            exact dictGet?_dictUpdate_of_get_some _ _ _ _ hnd hget⟩

/-- C4 witness: a concrete dispatch node with no cases, no default and a
finally arm, on input `{k: 1}`: the reference equality holds and the
finally arm's run ends the trace with its record's fields visible. -/
theorem matchCaseBranch_dispatch_witness :
    (runMatchWith (PipelineBranch.runBranch 5) (.mk "k" [] none (some PipelineBranch.init))
        [("k", PValue.vint 1)] none [] =
      dispatchReferenceWith (PipelineBranch.runBranch 5)
        (.mk "k" [] none (some PipelineBranch.init)) [("k", PValue.vint 1)] none [])
    ∧ ∃ res2 fres fb' trf,
        PipelineBranch.runBranch 5 PipelineBranch.init [("k", PValue.vint 1)] none trf =
          .ok ((fres, fb'), [])
        ∧ [("k", PValue.vint 1)] = dictUpdate res2 fres
        ∧ ∀ k w, (dictKeys fres).Nodup → dictGet? fres k = some w →
            dictGet? [("k", PValue.vint 1)] k = some w :=
  ⟨(matchCaseBranch_dispatch (PipelineBranch.runBranch 5)
      (.mk "k" [] none (some PipelineBranch.init)) [("k", PValue.vint 1)] none []).1,
   (matchCaseBranch_dispatch (PipelineBranch.runBranch 5)
      (.mk "k" [] none (some PipelineBranch.init)) [("k", PValue.vint 1)] none []).2
     [("k", PValue.vint 1)]
     (.mk "k" [] none (some (.mk (.mk [] [] [("k", PValue.vint 1)] [] [] false false))))
     [] PipelineBranch.init rfl rfl⟩

/-! ## C3: provider memoization at the store level -/

theorem normalize_result_nodup (r : PyResult) (names : List String) (nm : String)
    (out : Record) (hwf : r.dictWF) (h : normalize_result r names nm = .ok out) :
    (dictKeys out).Nodup := by
  cases r with
  | rdict items =>
      simp only [normalize_result, Except.ok.injEq] at h
      exact h ▸ hwf
  | rtuple xs =>
      simp only [normalize_result] at h
      split at h
      · cases h
      · simp only [Except.ok.injEq] at h
        exact h ▸ dictKeys_nodup_dictMake _
  | rnamedtuple fields =>
      simp only [normalize_result] at h
      split at h
      · cases h
      · simp only [Except.ok.injEq] at h
        exact h ▸ dictKeys_nodup_dictMake _
  | rdataclass fields =>
      simp only [normalize_result, Except.ok.injEq] at h
      exact h ▸ dictKeys_nodup_dictMake _
  | rscalar v =>
      cases names with
      | nil =>
          simp only [normalize_result, Except.ok.injEq] at h
          simp [← h, dictKeys]
      | cons n rest =>
          cases rest with
          | nil =>
              simp only [normalize_result, Except.ok.injEq] at h
              simp [← h, dictKeys]
          | cons n2 rest2 => cases h

theorem lruLookup_mem (table : List (Record × PyResult)) (k : Record) (r : PyResult)
    (h : lruLookup table k = some r) : ∃ e ∈ table, e.2 = r := by
  unfold lruLookup at h
  cases hf : table.find? (fun e => pyEqRecord e.1 k) with
  | none => rw [hf] at h; cases h
  | some e =>
      rw [hf] at h
      exact ⟨e, List.mem_of_find?_eq_some hf, by simpa using h⟩

theorem mem_lruTouch (table : List (Record × PyResult)) (k : Record)
    (e' : Record × PyResult) (h : e' ∈ lruTouch table k) : e' ∈ table := by
  unfold lruTouch at h
  cases hf : table.find? (fun e => pyEqRecord e.1 k) with
  | none => rw [hf] at h; exact h
  | some e =>
      rw [hf] at h
      rcases List.mem_cons.mp h with h | h
      · exact h ▸ List.mem_of_find?_eq_some hf
      · exact List.mem_of_mem_filter h

theorem mem_lruInsert (table : List (Record × PyResult)) (k : Record) (r : PyResult)
    (m : Option Nat) (e' : Record × PyResult) (h : e' ∈ lruInsert table k r m) :
    e' = (k, r) ∨ e' ∈ table := by
  unfold lruInsert at h
  cases m with
  | none => exact List.mem_cons.mp h
  | some mm => exact List.mem_cons.mp (List.take_subset _ _ h)

theorem callFunc_wf (f : DecoratedFun) (unwrap : Bool) (inputs : Record) (tr : Trace)
    (r : PyResult) (f' : DecoratedFun) (tr' : Trace)
    (himpl : ∀ inp, (f.func.impl inp).dictWF)
    (htab : ∀ e ∈ f.cacheTable, e.2.dictWF)
    (h : callFunc f unwrap inputs tr = .ok ((r, f'), tr')) :
    r.dictWF ∧ (∀ inp, (f'.func.impl inp).dictWF) ∧ ∀ e ∈ f'.cacheTable, e.2.dictWF := by
  unfold callFunc at h
  cases hc : f.pipeline_cache with
  | false =>
      rw [hc] at h
      simp only [Bool.false_eq_true, if_false, Except.ok.injEq, Prod.mk.injEq] at h
      obtain ⟨⟨hr, hf'⟩, htr⟩ := h
      subst hr
      subst hf'
      exact ⟨himpl inputs, himpl, htab⟩
  | true =>
      rw [hc] at h
      simp only [if_true] at h
      cases unwrap with
      | false => simp at h
      | true =>
          simp only [if_true] at h
          cases hl : lruLookup f.cacheTable inputs with
          | some r0 =>
              rw [hl] at h
              simp only [Except.ok.injEq, Prod.mk.injEq] at h
              obtain ⟨⟨hr, hf'⟩, htr⟩ := h
              subst hr
              subst hf'
              obtain ⟨e, he, her⟩ := lruLookup_mem _ _ _ hl
              exact ⟨her ▸ htab e he, himpl,
                fun e' he' => htab e' (mem_lruTouch _ _ _ he')⟩
          | none =>
              rw [hl] at h
              simp only [Except.ok.injEq, Prod.mk.injEq] at h
              obtain ⟨⟨hr, hf'⟩, htr⟩ := h
              subst hr
              subst hf'
              refine ⟨himpl inputs, himpl, fun e' he' => ?_⟩
              rcases mem_lruInsert _ _ _ _ _ he' with h' | h'
              · exact h' ▸ himpl inputs
              · exact htab e' h'

theorem transform_wf (t : PipelineTransformer) (inputs : Record) (tr : Trace)
    (out : Record) (t' : PipelineTransformer) (tr' : Trace) (hwf : TransWF t)
    (h : t.transform inputs tr = .ok ((out, t'), tr')) :
    (dictKeys out).Nodup ∧ TransWF t' := by
  unfold PipelineTransformer.transform at h
  cases hv : validateInputs t.inputs inputs with
  | error e => rw [hv] at h; cases h
  | ok u =>
      cases u
      cases hc : callFunc t.func t.unwrap_inputs inputs tr with
      | error e => simp [hv, hc] at h
      | ok r1 =>
          obtain ⟨⟨result, f'⟩, tr2⟩ := r1
          obtain ⟨hres, himpl', htab'⟩ :=
            callFunc_wf t.func t.unwrap_inputs inputs tr result f' tr2 hwf.1 hwf.2 hc
          cases hn : normalize_result result (dictKeys t.outputs) t.func.func.name with
          | error e => simp [hv, hc, hn] at h
          | ok r =>
              simp only [hv, hc, hn, Except.ok.injEq, Prod.mk.injEq] at h
              obtain ⟨⟨hout, ht'⟩, htr⟩ := h
              subst hout
              subst ht'
              exact ⟨normalize_result_nodup _ _ _ _ hres hn, himpl', htab'⟩

theorem resolveTransInputsWith_wf (res : Resolver) (hres : ResolverWF res) :
    ∀ (ins : Schema) (rc acc : Record) (tf tf' : List PipelineTransformer)
      (req rc' : Record) (tr tr' : Trace),
      (∀ t ∈ tf, TransWF t) →
      resolveTransInputsWith res rc tf ins acc tr = .ok ((req, rc', tf'), tr') →
      ∀ t' ∈ tf', TransWF t' := by
  intro ins
  induction ins with
  | nil =>
      intro rc acc tf tf' req rc' tr tr' hall h
      simp only [resolveTransInputsWith, Except.ok.injEq, Prod.mk.injEq] at h
      exact h.1.2.2 ▸ hall
  | cons p rest ih =>
      intro rc acc tf tf' req rc' tr tr' hall h
      obtain ⟨key, expected⟩ := p
      simp only [resolveTransInputsWith] at h
      cases hr : res rc tf ⟨expected, key⟩ tr with
      | error e => rw [hr] at h; cases h
      | ok r1 =>
          obtain ⟨⟨v, rc1, tf1⟩, tr1⟩ := r1
          rw [hr] at h
          exact ih rc1 (dictInsert acc key v) tf1 tf' req rc' tr1 tr'
            (hres rc tf ⟨expected, key⟩ tr v rc1 tf1 tr1 hall hr) h

theorem scanTransformsWith_ok (res : Resolver) (hres : ResolverWF res)
    (d : PipelineDataDefinition) :
    ∀ (rem : List PipelineTransformer) (i : Nat) (rc : Record)
      (tf tf' : List PipelineTransformer) (v : PValue) (rc' : Record) (tr tr' : Trace),
      (∀ t ∈ tf, TransWF t) → (∀ t ∈ rem, TransWF t) →
      scanTransformsWith res rc tf rem i d tr = .ok ((v, rc', tf'), tr') →
      dictGet? rc' d.name = some v ∧ ∀ t' ∈ tf', TransWF t' := by
  intro rem
  induction rem with
  | nil =>
      intro i rc tf tf' v rc' tr tr' hall hrem h
      cases h
  | cons t rest ih =>
      intro i rc tf tf' v rc' tr tr' hall hrem h
      simp only [scanTransformsWith] at h
      cases hcont : (dictKeys t.outputs).contains d.name with
      | false =>
          rw [hcont] at h
          simp only [Bool.false_eq_true, if_false] at h
          exact ih (i + 1) rc tf tf' v rc' tr tr' hall
            (fun t' ht' => hrem t' (List.mem_cons_of_mem _ ht')) h
      | true =>
          rw [hcont] at h
          simp only [if_true] at h
          cases hti : resolveTransInputsWith res rc tf t.inputs [] tr with
          | error e => rw [hti] at h; cases h
          | ok r1 =>
              obtain ⟨⟨req, rc1, tf1⟩, tr1⟩ := r1
              simp only [hti] at h
              have htf1 : ∀ t' ∈ tf1, TransWF t' :=
                resolveTransInputsWith_wf res hres t.inputs rc [] tf tf1 req rc1 tr tr1 hall hti
              have ht1 : TransWF ((tf1[i]?).getD t) := by
                cases hgt : tf1[i]? with
                | some tx =>
                    obtain ⟨hlt, he⟩ := List.getElem?_eq_some.mp hgt
                    exact htf1 _ (he ▸ List.getElem_mem hlt)
                | none => exact hrem t (List.mem_cons_self _ _)
              cases htr2 : ((tf1[i]?).getD t).transform req tr1 with
              | error e => simp [htr2] at h
              | ok r2 =>
                  obtain ⟨⟨result, t2⟩, tr2⟩ := r2
                  simp only [List.get?_eq_getElem?, htr2] at h
                  obtain ⟨hnodup, ht2⟩ := transform_wf _ _ _ _ _ _ ht1 htr2
                  cases hgr : dictGet? result d.name with
                  | none => simp [hgr] at h
                  | some v0 =>
                      simp only [hgr] at h
                      simp only [Except.ok.injEq, Prod.mk.injEq] at h
                      obtain ⟨⟨hv, hrc', htf'⟩, htr⟩ := h
                      subst hv
                      refine ⟨?_, ?_⟩
                      · rw [← hrc']
                        exact dictGet?_dictUpdate_of_get_some _ _ _ _ hnodup hgr
                      · rw [← htf']
                        intro t' ht'
                        rcases List.mem_or_eq_of_mem_set ht' with h' | h'
                        · exact htf1 t' h'
                        · exact h' ▸ ht2

theorem pipelineGetInputWith_ok (res : Resolver) (hres : ResolverWF res)
    (d : PipelineDataDefinition) (rc : Record) (tf tf' : List PipelineTransformer)
    (v : PValue) (rc' : Record) (tr tr' : Trace)
    (hall : ∀ t ∈ tf, TransWF t)
    (h : pipelineGetInputWith res rc tf d tr = .ok ((v, rc', tf'), tr')) :
    dictGet? rc' d.name = some v ∧ ∀ t' ∈ tf', TransWF t' := by
  unfold pipelineGetInputWith at h
  cases hg : dictGet? rc d.name with
  | some v0 =>
      rw [hg] at h
      simp only [Except.ok.injEq, Prod.mk.injEq] at h
      obtain ⟨⟨hv, hrc', htf'⟩, htr⟩ := h
      subst hv
      exact ⟨hrc' ▸ hg, htf' ▸ hall⟩
  | none =>
      rw [hg] at h
      exact scanTransformsWith_ok res hres d tf 0 rc tf tf' v rc' tr tr' hall hall h

theorem resolve_input_wf (fuel : Nat) :
    ResolverWF (fun rc tf d' tr' => resolve_input fuel rc tf (some ()) d' tr') := by
  induction fuel with
  | zero =>
      intro rc tf d tr v rc' tf' tr' hall h
      cases h
  | succ fuel ih =>
      intro rc tf d tr v rc' tf' tr' hall h
      simp only [resolve_input] at h
      cases hhas : pipelineHasInput rc tf d with
      | false =>
          rw [hhas] at h
          simp only [Bool.false_eq_true, if_false] at h
          cases h
      | true =>
          rw [hhas] at h
          simp only [if_true] at h
          exact (pipelineGetInputWith_ok _ ih d rc tf tf' v rc' tr tr' hall h).2

/-- C3: store-level memoization of providers.  Once `_get_input` has
resolved a field — whether from the store or by invoking a transformer and
merging all of its produced outputs — any later `_get_input` for the same
field in the same scope (first conjunct), and indeed for any field present
in the scope's store (second conjunct), answers from the store: same value,
unchanged store, unchanged transformer pool, and an untouched invocation
trace, i.e. no provider is invoked again, regardless of how many downstream
Runnables request the field.  The hypothesis `TransWF` states that
transformer functions return genuine Python dicts (no duplicate keys) —
true of every actual Python execution. -/
theorem provider_outputs_memoized_per_scope
    (fuel fuel2 fuel3 : Nat) (records : Record) (transforms : List PipelineTransformer)
    (d : PipelineDataDefinition) (v : PValue) (records' : Record)
    (transforms' : List PipelineTransformer) (tr tr' tr2 tr3 : Trace)
    (t : PType) (k : String) (w : PValue)
    (hwf : ∀ tt ∈ transforms, TransWF tt)
    (h : pipelineGetInput fuel records transforms d tr = .ok ((v, records', transforms'), tr')) :
    pipelineGetInput fuel2 records' transforms' d tr2 =
      .ok ((v, records', transforms'), tr2)
    ∧ (dictGet? records' k = some w →
        pipelineGetInput fuel3 records' transforms' ⟨t, k⟩ tr3 =
          .ok ((w, records', transforms'), tr3)) := by
  unfold pipelineGetInput at h
  have hmem := (pipelineGetInputWith_ok _ (resolve_input_wf fuel) d records transforms
    transforms' v records' tr tr' hwf h).1
  constructor
  · unfold pipelineGetInput pipelineGetInputWith
    rw [hmem]
  · intro hk
    unfold pipelineGetInput pipelineGetInputWith
    rw [show (⟨t, k⟩ : PipelineDataDefinition).name = k from rfl, hk]

/-- C3 witness: resolving `x2` in a scope `{x: 5}` with the `double`
transformer invokes it once (trace `["double"]`) and merges `x2` into the
store; a repeated request (even with zero fuel) answers from the store with
nothing invoked, and so does a request for the untouched field `x`. -/
theorem provider_outputs_memoized_per_scope_witness :
    pipelineGetInput 4 [("x", PValue.vint 5), ("x2", PValue.vint 10)] [doubleTransformer]
        ⟨PType.tint, "x2"⟩ ["t"] =
      .ok ((PValue.vint 10, [("x", PValue.vint 5), ("x2", PValue.vint 10)],
        [doubleTransformer]), ["t"])
    ∧ pipelineGetInput 0 [("x", PValue.vint 5), ("x2", PValue.vint 10)] [doubleTransformer]
        ⟨PType.tany, "x"⟩ [] =
      .ok ((PValue.vint 5, [("x", PValue.vint 5), ("x2", PValue.vint 10)],
        [doubleTransformer]), []) := by
  have hwfX : ∀ tt ∈ [doubleTransformer], TransWF tt := by
    intro tt htt
    simp only [List.mem_singleton] at htt
    subst htt
    constructor
    · intro inp
      show PyResult.dictWF (doubleFunc.impl inp)
      simp only [doubleFunc]
      cases hx : dictGet? inp "x" with
      | none => exact trivial
      | some pv => cases pv <;> exact trivial
    · intro e he
      simp [doubleTransformer] at he
  have h := provider_outputs_memoized_per_scope 3 4 0 [("x", PValue.vint 5)]
    [doubleTransformer] ⟨PType.tint, "x2"⟩ (PValue.vint 10)
    [("x", PValue.vint 5), ("x2", PValue.vint 10)] [doubleTransformer] [] ["double"]
    ["t"] [] PType.tany "x" (PValue.vint 5) hwfX rfl
  exact ⟨h.1, h.2 rfl⟩
